import Mathlib

/-!
Verification of the tool federation layer of `ai-chat-cli` (Rust) against its
natural-language specification.

The Rust source is shallowly embedded: pure logic is translated directly,
filesystem state is passed explicitly as an association list from path to
contents, and external I/O (subprocess execution, the wire to an MCP server)
is abstracted as oracle functions supplied by the environment.  Fallible Rust
code returning `anyhow::Result` is modelled with an explicit outcome type that
also distinguishes panics, since Rust slice indexing can panic.
-/

set_option maxRecDepth 10000

namespace AiChatCli

/-- Outcome of running a Rust function returning `anyhow::Result<α>`:
`ok` is `Ok`, `err` is `Err` (a fatal error surfaced to the caller), and
`panic` models a Rust panic (e.g. out-of-bounds slice indexing). -/
inductive RResult (α : Type) where
  | ok : α → RResult α
  | err : String → RResult α
  | panic : RResult α
deriving DecidableEq, Repr

/-- Mirrors `ToolContent` from `src/builtin_tools.rs` (one text block). -/
structure ToolContent where
  content_type : String
  text : String
deriving DecidableEq, Repr

/-- Mirrors `ToolResult` from `src/builtin_tools.rs`. -/
structure ToolResult where
  content : List ToolContent
  is_error : Option Bool
deriving DecidableEq, Repr

/-- Mirrors `ToolResult::success` from `src/builtin_tools.rs`. -/
def ToolResult.success (text : String) : ToolResult :=
  ⟨[⟨"text", text⟩], none⟩

/-- Mirrors `ToolResult::error` from `src/builtin_tools.rs`. -/
def ToolResult.error (text : String) : ToolResult :=
  ⟨[⟨"text", text⟩], some true⟩

/-- Is this outcome a fatal `Err`? -/
def RResult.isErr {α : Type} : RResult α → Bool
  | .err _ => true
  | _ => false

/-- The filesystem, as a mapping from path to file contents.  A path absent
from the list is a file that cannot be read. -/
abbrev FS : Type := List (String × String)

/-- Mirrors `fs::read_to_string`: `none` models a read failure. -/
def fsRead (fs : FS) (path : String) : Option String :=
  List.lookup path fs

/-- Mirrors `fs::write` (overwrite-or-create; the model treats every path as
writable). -/
def fsWrite (fs : FS) (path : String) (content : String) : FS :=
  match fs with
  | [] => [(path, content)]
  | (p, c) :: rest =>
      if p = path then (path, content) :: rest
      else (p, c) :: fsWrite rest path content

/-- Substring test on character lists: does `pat` occur (contiguously)
anywhere in the list? -/
def isSubstring (pat : List Char) : List Char → Bool
  | [] => decide (pat = [])
  | c :: rest => pat.isPrefixOf (c :: rest) || isSubstring pat rest

/-- Rust `str::contains` (literal substring search). -/
def rustContains (s pat : String) : Bool :=
  isSubstring pat.data s.data

/-- Fuel-indexed worker for `replaceAll`; the fuel only forces structural
recursion and is irrelevant as long as it exceeds the list length
(`replaceAllF_irrel`). -/
def replaceAllF (pat rep : List Char) : Nat → List Char → List Char
  | 0, _ => []
  | _ + 1, [] => if pat = [] then rep else []
  | fuel + 1, c :: rest =>
      if pat = [] then rep ++ c :: replaceAllF pat rep fuel rest
      else if pat.isPrefixOf (c :: rest) then
        rep ++ replaceAllF pat rep fuel (rest.drop (pat.length - 1))
      else c :: replaceAllF pat rep fuel rest

/-- Rust `str::replace`: replace all non-overlapping occurrences of `pat`
left to right; for the empty pattern, `rep` is inserted before every
character and at the end (the behaviour of `match_indices("")`). -/
def replaceAll (pat rep s : List Char) : List Char :=
  replaceAllF pat rep (s.length + 1) s

/-- Rust `str::replace` lifted to `String`. -/
def rustReplace (s pat rep : String) : String :=
  ⟨replaceAll pat.data rep.data s.data⟩

/-- Split a character list at every newline character (`n + 1` segments for
`n` newlines). -/
def splitNl : List Char → List (List Char)
  | [] => [[]]
  | c :: rest =>
      if c = '\n' then [] :: splitNl rest
      else
        match splitNl rest with
        | [] => [[c]]
        | h :: t => (c :: h) :: t

/-- Rust `str::lines`: split on `'\n'`, drop the segment after a trailing
newline, and strip one trailing `'\r'` from every line that was terminated by
a `'\n'`.  A bare carriage return at the end of a final unterminated line is
kept (std: "Trailing carriage return is included in the last line", e.g.
`"foo\r\nbar\n\nbaz\r"` yields `foo`, `bar`, the empty line and `baz\r`). -/
def rustLines (s : String) : List String :=
  if s.data = [] then []
  else
    let parts := splitNl s.data
    let terminated := parts.dropLast.map (fun l =>
      (⟨if l.getLast? = some '\r' then l.dropLast else l⟩ : String))
    if s.data.getLast? = some '\n' then terminated
    else
      match parts.getLast? with
      | some last => terminated ++ [⟨last⟩]
      | none => terminated

/-- Arguments to `read_file`, after `serde_json` extraction: each field is
`None` when the key is absent or not of the expected JSON type
(`as_str` / `as_u64`). -/
structure ReadFileArgs where
  path : Option String
  start_line : Option Nat
  end_line : Option Nat

/-- Mirrors `BuiltinToolRegistry::execute_read_file` from `src/builtin_tools.rs`.
`start.saturating_sub(1)` is `Nat` subtraction; the Rust slice expression
`lines[start_idx..end_idx]` panics when `start_idx > end_idx`, which the
model surfaces as `RResult.panic`. -/
def execute_read_file (args : ReadFileArgs) (fs : FS) : RResult ToolResult :=
  match args.path with
  | none => .err "Missing 'path' parameter"
  | some path =>
    match fsRead fs path with
    | none => .err ("Failed to read file: " ++ path)
    | some content =>
      match args.start_line, args.end_line with
      | some start, some endLine =>
          let lines := rustLines content
          let startIdx := start - 1
          let endIdx := min endLine lines.length
          if startIdx ≤ endIdx then
            .ok (ToolResult.success
              (String.intercalate "\n" ((lines.drop startIdx).take (endIdx - startIdx))))
          else
            .panic
      | _, _ => .ok (ToolResult.success content)

/-- Arguments to `edit_file` after `serde_json` extraction. -/
structure EditFileArgs where
  path : Option String
  old_text : Option String
  new_text : Option String

/-- Mirrors `BuiltinToolRegistry::execute_edit_file` from `src/builtin_tools.rs`.
Returns the tool result together with the filesystem after the call. -/
def execute_edit_file (args : EditFileArgs) (fs : FS) :
    RResult (ToolResult × FS) :=
  match args.path with
  | none => .err "Missing 'path' parameter"
  | some path =>
    match args.old_text with
    | none => .err "Missing 'old_text' parameter"
    | some oldText =>
      match args.new_text with
      | none => .err "Missing 'new_text' parameter"
      | some newText =>
        match fsRead fs path with
        | none => .err ("Failed to read file: " ++ path)
        | some content =>
          if rustContains content oldText then
            let newContent := rustReplace content oldText newText
            .ok (ToolResult.success ("File edited successfully: " ++ path),
                 fsWrite fs path newContent)
          else
            .ok (ToolResult.error
                  "Old text not found in file. Text must match exactly.", fs)

/-- Arguments to `bash` after `serde_json` extraction. -/
structure BashArgs where
  command : Option String
  timeout : Option Nat

/-- What happened when the environment ran a shell command. -/
structure CmdOutput where
  stdout : String
  stderr : String
  exit_code : Int
  status_success : Bool

/-- Outcome of handing a command line to the operating system: the spawn can
fail, the `tokio::time::timeout` can fire, or the command runs to completion. -/
inductive BashOutcome where
  | spawnFail
  | timedOut
  | ran : CmdOutput → BashOutcome

/-- The `dangerous_patterns` array from `execute_bash` in
`src/builtin_tools.rs`, in source order. -/
def dangerous_patterns : List String :=
  ["rm -rf /", "dd if=", "mkfs", "format", "> /dev/"]

/-- Mirrors `BuiltinToolRegistry::execute_bash` from `src/builtin_tools.rs`.  The
subprocess is abstracted as the oracle `run`; it is consulted only when the
denylist check passes, so a result independent of `run` means no subprocess
was spawned. -/
def execute_bash (args : BashArgs) (run : String → BashOutcome) :
    RResult ToolResult :=
  match args.command with
  | none => .err "Missing 'command' parameter"
  | some command =>
    let timeoutSecs := args.timeout.getD 30
    match dangerous_patterns.find? (fun p => rustContains command p) with
    | some pat =>
        .ok (ToolResult.error
          ("Command blocked for security: contains '" ++ pat ++ "'"))
    | none =>
      match run command with
      | .spawnFail => .err "Failed to execute command"
      | .timedOut =>
          .ok (ToolResult.error
            ("Command timed out after " ++ toString timeoutSecs ++ " seconds"))
      | .ran out =>
          let result :=
            (if out.stdout ≠ "" then out.stdout else "")
            ++ (if out.stderr ≠ "" then
                  (if out.stdout ≠ "" then "\nSTDERR:\n" else "") ++ out.stderr
                else "")
          if out.status_success then
            .ok (ToolResult.success result)
          else
            .ok (ToolResult.error
              ("Command failed with exit code " ++ toString out.exit_code
                ++ "\n" ++ result))

/-! ## MCP client (`src/mcp_client.rs`) -/

/-- A JSON value, as produced by `serde_json`. -/
inductive Json where
  | null : Json
  | bool : Bool → Json
  | num : Nat → Json
  | str : String → Json
  | arr : List Json → Json
  | obj : List (String × Json) → Json

/-- Mirrors `serde_json` indexing `value[key]`: field lookup that yields `Null` for a
missing key or a non-object. -/
def jGet (j : Json) (key : String) : Json :=
  match j with
  | .obj fields =>
      match fields.lookup key with
      | some v => v
      | none => .null
  | _ => .null

/-- Mirrors `Tool` from `src/mcp_client.rs` (`inputSchema` is an arbitrary
`serde_json::Value`). -/
structure Tool where
  name : String
  description : String
  input_schema : Json

/-- Mirrors `Content` from `src/mcp_client.rs`. -/
structure Content where
  content_type : String
  text : String

/-- Mirrors `ToolCallResult` from `src/mcp_client.rs`. -/
structure ToolCallResult where
  content : List Content
  is_error : Option Bool

/-- Mirrors `serde_json::from_value::<Tool>`: all three fields are required
(`inputSchema` may be any JSON value). -/
def decodeTool (j : Json) : Option Tool :=
  match j with
  | .obj fields =>
      match fields.lookup "name", fields.lookup "description",
            fields.lookup "inputSchema" with
      | some (.str n), some (.str d), some s => some ⟨n, d, s⟩
      | _, _, _ => none
  | _ => none

/-- Mirrors `serde_json::from_value::<Vec<Tool>>`. -/
def decodeTools (j : Json) : Option (List Tool) :=
  match j with
  | .arr xs => xs.mapM decodeTool
  | _ => none

/-- Mirrors `serde_json::from_value::<Content>`. -/
def decodeContent (j : Json) : Option Content :=
  match j with
  | .obj fields =>
      match fields.lookup "type", fields.lookup "text" with
      | some (.str ty), some (.str tx) => some ⟨ty, tx⟩
      | _, _ => none
  | _ => none

/-- Mirrors `serde_json::from_value::<ToolCallResult>`: `content` is required,
`isError` is an `Option<bool>` (absent or `null` decodes to `None`). -/
def decodeToolCallResult (j : Json) : Option ToolCallResult :=
  match j with
  | .obj fields =>
      match fields.lookup "content" with
      | some (.arr xs) =>
          match xs.mapM decodeContent with
          | some cs =>
              match fields.lookup "isError" with
              | none => some ⟨cs, none⟩
              | some .null => some ⟨cs, none⟩
              | some (.bool b) => some ⟨cs, some b⟩
              | some _ => none
          | none => none
      | _ => none
  | _ => none

/-- The `params` of the `initialize` request, common to both transports
(`StdioClient::initialize` / `HttpClient::initialize`). -/
def initParams : Json :=
  .obj [("protocolVersion", .str "2025-06-18"),
        ("capabilities", .obj []),
        ("clientInfo", .obj [("name", .str "ai-chat-cli"),
                             ("version", .str "0.2.0")])]

/-- The `initialize` JSON-RPC request with a numeric id. -/
def initRequest (id : Nat) : Json :=
  .obj [("jsonrpc", .str "2.0"), ("id", .num id),
        ("method", .str "initialize"), ("params", initParams)]

/-- The `notifications/initialized` notification sent by
`StdioClient::initialize`; it carries no `id` field. -/
def initializedNotification : Json :=
  .obj [("jsonrpc", .str "2.0"), ("method", .str "notifications/initialized")]

/-- The `tools/list` request with a numeric id (stdio transport). -/
def toolsListRequest (id : Nat) : Json :=
  .obj [("jsonrpc", .str "2.0"), ("id", .num id),
        ("method", .str "tools/list")]

/-- The `tools/call` request with a numeric id (stdio transport). -/
def toolsCallRequest (id : Nat) (name : String) (arguments : Json) : Json :=
  .obj [("jsonrpc", .str "2.0"), ("id", .num id),
        ("method", .str "tools/call"),
        ("params", .obj [("name", .str name), ("arguments", arguments)])]

/-- Runtime state of a `StdioClient`: the request-id counter, the messages
written to the subprocess stdin in order, and how many response lines have
been consumed from its stdout. -/
structure StdioState where
  requestId : Nat
  sent : List Json
  readCount : Nat

/-- The subprocess's side of the stdio conversation: the parsed JSON of the
`n`-th response line, or `none` when the line cannot be parsed (or the pipe
is closed). -/
abbrev StdioOracle : Type := Nat → Option Json

/-- Mirrors `StdioClient::send_request`: write the request line, then synchronously
read and parse one response line. -/
def stdioSendRequest (st : StdioState) (oracle : StdioOracle) (req : Json) :
    RResult (Json × StdioState) :=
  let st := { st with sent := st.sent ++ [req] }
  match oracle st.readCount with
  | none => .err "Failed to parse MCP response"
  | some resp => .ok (resp, { st with readCount := st.readCount + 1 })

/-- Mirrors `StdioClient::send_notification`: write one line, read nothing. -/
def stdioSendNotification (st : StdioState) (notif : Json) : StdioState :=
  { st with sent := st.sent ++ [notif] }

/-- Mirrors `StdioClient::initialize`: send the `initialize` request, await its
response (discarding the payload), bump the id counter, then send the
`initialized` notification. -/
def stdioInitialize (st : StdioState) (oracle : StdioOracle) :
    RResult StdioState :=
  match stdioSendRequest st oracle (initRequest st.requestId) with
  | .ok (_, st) =>
      let st := { st with requestId := st.requestId + 1 }
      .ok (stdioSendNotification st initializedNotification)
  | .err e => .err e
  | .panic => .panic

/-- Mirrors `StdioClient::new` (spawn succeeded): fresh state with `request_id = 1`,
then the handshake; a handshake failure fails the whole connect. -/
def stdioConnect (oracle : StdioOracle) : RResult StdioState :=
  stdioInitialize ⟨1, [], 0⟩ oracle

/-- Mirrors `StdioClient::list_tools`: send `tools/list`, decode
`response["result"]["tools"]` as `Vec<Tool>`; a decode failure is a fatal
`Err` from `serde_json::from_value`. -/
def stdioListTools (st : StdioState) (oracle : StdioOracle) :
    RResult (List Tool × StdioState) :=
  match stdioSendRequest st oracle (toolsListRequest st.requestId) with
  | .ok (resp, st) =>
      let st := { st with requestId := st.requestId + 1 }
      match decodeTools (jGet (jGet resp "result") "tools") with
      | some tools => .ok (tools, st)
      | none => .err "invalid type for Vec<Tool>"
  | .err e => .err e
  | .panic => .panic

/-- Mirrors `StdioClient::call_tool`: send `tools/call`, decode `response["result"]`
as `ToolCallResult`. -/
def stdioCallTool (st : StdioState) (oracle : StdioOracle) (name : String)
    (arguments : Json) : RResult (ToolCallResult × StdioState) :=
  match stdioSendRequest st oracle
      (toolsCallRequest st.requestId name arguments) with
  | .ok (resp, st) =>
      let st := { st with requestId := st.requestId + 1 }
      match decodeToolCallResult (jGet resp "result") with
      | some result => .ok (result, st)
      | none => .err "invalid type for ToolCallResult"
  | .err e => .err e
  | .panic => .panic

/-- An HTTP exchange as seen by `HttpClient::send_request`: the POST can fail
at the network level, or come back with a status code and a body (`none`
models a body that is not valid JSON). -/
inductive HttpResp where
  | netFail : HttpResp
  | resp : Nat → Option Json → HttpResp

/-- The HTTP server's side of the conversation: each JSON-RPC request is one
independent POST. -/
abbrev HttpOracle : Type := Json → HttpResp

/-- Mirrors `HttpClient::send_request`: POST the envelope; a non-2xx status is an
error, then the body must parse as JSON.  The trace of requests sent so far
is threaded through explicitly. -/
def httpSendRequest (oracle : HttpOracle) (req : Json) (trace : List Json) :
    RResult Json × List Json :=
  let trace := trace ++ [req]
  match oracle req with
  | .netFail => (.err "Failed to send HTTP request to MCP server", trace)
  | .resp status body =>
      if 200 ≤ status ∧ status ≤ 299 then
        match body with
        | none => (.err "Failed to parse MCP response", trace)
        | some j => (.ok j, trace)
      else
        (.err ("MCP server returned error: " ++ toString status), trace)

/-- Mirrors `HttpClient::initialize`: POST the `initialize` request (with the literal
id 1); the response payload is ignored entirely once `send_request`
succeeds. -/
def httpInitialize (oracle : HttpOracle) (trace : List Json) :
    RResult Unit × List Json :=
  match httpSendRequest oracle (initRequest 1) trace with
  | (.ok _, trace) => (.ok (), trace)
  | (.err e, trace) => (.err e, trace)
  | (.panic, trace) => (.panic, trace)

/-- Mirrors `HttpClient::new`: the handshake is just `initialize`; its failure fails
the whole connect. -/
def httpConnect (oracle : HttpOracle) : RResult Unit × List Json :=
  httpInitialize oracle []

/-- The `tools/list` request with a string id (the HTTP transport uses a
fresh UUID, supplied here by the environment). -/
def toolsListRequestHttp (id : String) : Json :=
  .obj [("jsonrpc", .str "2.0"), ("id", .str id),
        ("method", .str "tools/list")]

/-- The `tools/call` request with a string id (HTTP transport). -/
def toolsCallRequestHttp (id : String) (name : String) (arguments : Json) :
    Json :=
  .obj [("jsonrpc", .str "2.0"), ("id", .str id),
        ("method", .str "tools/call"),
        ("params", .obj [("name", .str name), ("arguments", arguments)])]

/-- Mirrors `HttpClient::list_tools`: POST `tools/list`, decode
`response["result"]["tools"]` as `Vec<Tool>`. -/
def httpListTools (oracle : HttpOracle) (uuid : String) :
    RResult (List Tool) :=
  match httpSendRequest oracle (toolsListRequestHttp uuid) [] with
  | (.ok resp, _) =>
      match decodeTools (jGet (jGet resp "result") "tools") with
      | some tools => .ok tools
      | none => .err "invalid type for Vec<Tool>"
  | (.err e, _) => .err e
  | (.panic, _) => .panic

/-- Mirrors `HttpClient::call_tool`: POST `tools/call`, decode `response["result"]`
as `ToolCallResult`. -/
def httpCallTool (oracle : HttpOracle) (uuid : String) (name : String)
    (arguments : Json) : RResult ToolCallResult :=
  match httpSendRequest oracle (toolsCallRequestHttp uuid name arguments) [] with
  | (.ok resp, _) =>
      match decodeToolCallResult (jGet resp "result") with
      | some result => .ok result
      | none => .err "invalid type for ToolCallResult"
  | (.err e, _) => .err e
  | (.panic, _) => .panic

/-! ## Built-in tool registry table (`BuiltinToolRegistry::new`) -/

/-- Mirrors `BuiltinTool` from `src/builtin_tools.rs`. -/
structure BuiltinTool where
  name : String
  description : String
  input_schema : Json

/-- Mirrors `BuiltinToolRegistry::bash_tool`. -/
def bash_tool : BuiltinTool :=
  ⟨"bash",
   "Execute shell commands in a secure environment. Use for running CLI tools, scripts, and system commands.",
   .obj [("type", .str "object"),
         ("properties", .obj
           [("command", .obj [("type", .str "string"),
              ("description", .str "The shell command to execute")]),
            ("timeout", .obj [("type", .str "integer"),
              ("description", .str "Timeout in seconds (default: 30)"),
              ("default", .num 30)])]),
         ("required", .arr [.str "command"])]⟩

/-- Mirrors `BuiltinToolRegistry::read_file_tool`. -/
def read_file_tool : BuiltinTool :=
  ⟨"read_file",
   "Read the contents of a file from the filesystem.",
   .obj [("type", .str "object"),
         ("properties", .obj
           [("path", .obj [("type", .str "string"),
              ("description", .str "Path to the file to read")]),
            ("start_line", .obj [("type", .str "integer"),
              ("description", .str "Starting line number (1-indexed, optional)")]),
            ("end_line", .obj [("type", .str "integer"),
              ("description", .str "Ending line number (inclusive, optional)")])]),
         ("required", .arr [.str "path"])]⟩

/-- Mirrors `BuiltinToolRegistry::list_files_tool`. -/
def list_files_tool : BuiltinTool :=
  ⟨"list_files",
   "List files and directories with metadata (size, modified time, permissions).",
   .obj [("type", .str "object"),
         ("properties", .obj
           [("path", .obj [("type", .str "string"),
              ("description", .str "Directory path to list (default: current directory)"),
              ("default", .str ".")]),
            ("recursive", .obj [("type", .str "boolean"),
              ("description", .str "List recursively"),
              ("default", .bool false)])])]⟩

/-- Mirrors `BuiltinToolRegistry::search_glob_tool`. -/
def search_glob_tool : BuiltinTool :=
  ⟨"search_glob",
   "Search for files matching a glob pattern (e.g., '**/*.rs', 'src/**/*.json').",
   .obj [("type", .str "object"),
         ("properties", .obj
           [("pattern", .obj [("type", .str "string"),
              ("description", .str "Glob pattern to match")]),
            ("base_path", .obj [("type", .str "string"),
              ("description", .str "Base directory to search from (default: current directory)"),
              ("default", .str ".")])]),
         ("required", .arr [.str "pattern"])]⟩

/-- Mirrors `BuiltinToolRegistry::grep_tool`. -/
def grep_tool : BuiltinTool :=
  ⟨"grep",
   "Search for text patterns in files using regex. For better performance, consider using 'rg' (ripgrep) via bash tool.",
   .obj [("type", .str "object"),
         ("properties", .obj
           [("pattern", .obj [("type", .str "string"),
              ("description", .str "Regular expression pattern to search for")]),
            ("path", .obj [("type", .str "string"),
              ("description", .str "File or directory to search in")]),
            ("recursive", .obj [("type", .str "boolean"),
              ("description", .str "Search recursively in directories"),
              ("default", .bool false)]),
            ("ignore_case", .obj [("type", .str "boolean"),
              ("description", .str "Case-insensitive search"),
              ("default", .bool false)])]),
         ("required", .arr [.str "pattern", .str "path"])]⟩

/-- Mirrors `BuiltinToolRegistry::edit_file_tool`. -/
def edit_file_tool : BuiltinTool :=
  ⟨"edit_file",
   "Edit a file by performing exact string replacement. The old_text must match exactly.",
   .obj [("type", .str "object"),
         ("properties", .obj
           [("path", .obj [("type", .str "string"),
              ("description", .str "Path to the file to edit")]),
            ("old_text", .obj [("type", .str "string"),
              ("description", .str "Exact text to replace (must match exactly)")]),
            ("new_text", .obj [("type", .str "string"),
              ("description", .str "New text to insert")])]),
         ("required", .arr [.str "path", .str "old_text", .str "new_text"])]⟩

/-- Mirrors `BuiltinToolRegistry::write_file_tool`. -/
def write_file_tool : BuiltinTool :=
  ⟨"write_file",
   "Write content to a file, creating it if it doesn't exist or overwriting if it does.",
   .obj [("type", .str "object"),
         ("properties", .obj
           [("path", .obj [("type", .str "string"),
              ("description", .str "Path to the file to write")]),
            ("content", .obj [("type", .str "string"),
              ("description", .str "Content to write to the file")])]),
         ("required", .arr [.str "path", .str "content"])]⟩

/-- Mirrors `BuiltinToolRegistry::think_tool`. -/
def think_tool : BuiltinTool :=
  ⟨"think",
   "A no-operation tool for internal reasoning and planning. Use this to think through complex problems step by step.",
   .obj [("type", .str "object"),
         ("properties", .obj
           [("thoughts", .obj [("type", .str "string"),
              ("description", .str "Your internal thoughts and reasoning")])]),
         ("required", .arr [.str "thoughts"])]⟩

/-- The `tools` vector built by `BuiltinToolRegistry::new`, in source
order. -/
def builtinToolsList : List BuiltinTool :=
  [bash_tool, read_file_tool, list_files_tool, search_glob_tool,
   grep_tool, edit_file_tool, write_file_tool, think_tool]

/-! ## Federation manager (`src/mcp_manager.rs`, config from
`src/mcp_config.rs`) -/

/-- Mirrors `McpServerConfig` from `src/mcp_config.rs` (`args`, `env`, `headers` are
irrelevant to connection dispatch and elided; the variant choice depends only
on `command`/`http_url`). -/
structure McpServerConfig where
  command : Option String
  http_url : Option String

/-- Mirrors `McpServerConfig::is_stdio`. -/
def McpServerConfig.isStdio (c : McpServerConfig) : Bool :=
  c.command.isSome

/-- Mirrors `McpServerConfig::isHttp` (`is_http` in the source). -/
def McpServerConfig.isHttp (c : McpServerConfig) : Bool :=
  c.http_url.isSome

/-- A `HashMap` insert on an association list: replaces the value of an
existing key in place, otherwise appends.  (Used to model
`HashMap::insert`, whose later inserts overwrite earlier ones.) -/
def mapInsert {α : Type} (m : List (String × α)) (k : String) (v : α) :
    List (String × α) :=
  match m with
  | [] => [(k, v)]
  | (k', v') :: rest =>
      if k' = k then (k, v) :: rest else (k', v') :: mapInsert rest k v

/-- Mirrors `McpManager` state: the connected-clients map (the client value is
abstracted to `Unit`) and the catalog `tool_name -> (server_name, tool)`. -/
structure McpManager where
  clients : List (String × Unit)
  tools : List (String × (String × Tool))

/-- The environment's answer to `McpManager::connect_server`'s transport
connect (`McpClient::connect_stdio` / `connect_http`), per server name. -/
abbrev ConnectOracle : Type := String → Except String Unit

/-- The environment's answer to `McpClient::list_tools`, per server name. -/
abbrev ListToolsOracle : Type := String → Except String (List Tool)

/-- Mirrors `McpManager::connect_server`: dispatch on the config variant; a config
with neither `command` nor `httpUrl` is itself an error. -/
def connect_server (connectO : ConnectOracle) (name : String)
    (config : McpServerConfig) : Except String Unit :=
  if config.isStdio then connectO name
  else if config.isHttp then connectO name
  else .error "Server configuration must specify either command or httpUrl"

/-- The loop body of `McpManager::discover_tools` for one connected client:
list its tools and insert them into the catalog under that server's name; a
per-server failure is logged and skipped. -/
def discoverStep (listO : ListToolsOracle)
    (acc : List (String × (String × Tool))) (sc : String × Unit) :
    List (String × (String × Tool)) :=
  match listO sc.1 with
  | .ok tools => tools.foldl (fun acc t => mapInsert acc t.name (sc.1, t)) acc
  | .error _ => acc

/-- Mirrors `McpManager::discover_tools`: fold the per-client step over the connected
clients; the function always returns `Ok(())` (failures are only logged). -/
def discover_tools (listO : ListToolsOracle) (m : McpManager) :
    Except String McpManager :=
  .ok { m with tools := m.clients.foldl (discoverStep listO) m.tools }

/-- The loop body of `McpManager::new` for one configured server: attempt
the connect; on success insert the client under the server's name, on failure
log and skip the server. -/
def connectStep (connectO : ConnectOracle) (m : McpManager)
    (nc : String × McpServerConfig) : McpManager :=
  match connect_server connectO nc.1 nc.2 with
  | .ok () => { m with clients := mapInsert m.clients nc.1 () }
  | .error _ => m

/-- Mirrors `McpManager::new` (with `McpConfig::load` abstracted into the `servers`
argument, in a fixed iteration order): register the built-in tools first
under owner `"builtin"`, then attempt each server connect — a failure is
logged and that server skipped — then discover tools from the connected
servers. -/
def managerNew (servers : List (String × McpServerConfig))
    (connectO : ConnectOracle) (listO : ListToolsOracle) :
    Except String McpManager :=
  let m : McpManager := ⟨[], []⟩
  let m := { m with
             tools := builtinToolsList.foldl (fun acc t =>
               mapInsert acc t.name ("builtin", Tool.mk t.name t.description
                 t.input_schema)) m.tools }
  let m := servers.foldl (connectStep connectO) m
  discover_tools listO m

/-! ## Helper lemmas -/

theorem replaceAllF_irrel (pat rep : List Char) :
    ∀ f₁ f₂ s, s.length < f₁ → s.length < f₂ →
      replaceAllF pat rep f₁ s = replaceAllF pat rep f₂ s := by
  intro f₁
  induction f₁ with
  | zero => intro f₂ s h₁ _; exact absurd h₁ (Nat.not_lt_zero _)
  | succ f ih =>
    intro f₂ s h₁ h₂
    cases f₂ with
    | zero => exact absurd h₂ (Nat.not_lt_zero _)
    | succ g =>
      cases s with
      | nil => rfl
      | cons c rest =>
        have hr : rest.length < f := by
          simp only [List.length_cons] at h₁; omega
        have hr' : rest.length < g := by
          simp only [List.length_cons] at h₂; omega
        simp only [replaceAllF]
        by_cases hp : pat = []
        · simp only [if_pos hp]
          rw [ih g rest hr hr']
        · simp only [if_neg hp]
          by_cases hpre : pat.isPrefixOf (c :: rest) = true
          · simp only [if_pos hpre]
            have hd : (rest.drop (pat.length - 1)).length < f := by
              simp only [List.length_drop]; omega
            have hd' : (rest.drop (pat.length - 1)).length < g := by
              simp only [List.length_drop]; omega
            rw [ih g _ hd hd']
          · simp only [if_neg hpre]
            rw [ih g rest hr hr']

theorem replaceAll_nil (pat rep : List Char) :
    replaceAll pat rep [] = if pat = [] then rep else [] := rfl

theorem replaceAll_cons (pat rep : List Char) (c : Char) (rest : List Char) :
    replaceAll pat rep (c :: rest) =
      if pat = [] then rep ++ c :: replaceAll pat rep rest
      else if pat.isPrefixOf (c :: rest) = true then
        rep ++ replaceAll pat rep (rest.drop (pat.length - 1))
      else c :: replaceAll pat rep rest := by
  show replaceAllF pat rep (rest.length + 1 + 1) (c :: rest) = _
  simp only [replaceAllF]
  by_cases hp : pat = []
  · simp only [if_pos hp]; rfl
  · simp only [if_neg hp]
    by_cases hpre : pat.isPrefixOf (c :: rest) = true
    · simp only [if_pos hpre]
      rw [replaceAllF_irrel pat rep (rest.length + 1)
            ((rest.drop (pat.length - 1)).length + 1) _
            (by simp only [List.length_drop]; omega) (Nat.lt_succ_self _)]
      rfl
    · simp only [if_neg hpre]; rfl

theorem isSubstring_append (pat : List Char) :
    ∀ u v, isSubstring pat (u ++ (pat ++ v)) = true := by
  intro u
  induction u with
  | nil =>
    intro v
    cases pat with
    | nil =>
      cases v with
      | nil => rfl
      | cons c r => simp [isSubstring, List.isPrefixOf]
    | cons c p =>
      have hpre : (c :: p).isPrefixOf (c :: p ++ v) = true := by
        rw [List.isPrefixOf_iff_prefix]
        exact ⟨v, by simp⟩
      simp [isSubstring, hpre]
  | cons c u' ih =>
    intro v
    simp [isSubstring, ih v]

theorem replaceAll_append_left (pat rep : List Char) (hp : pat ≠ []) :
    ∀ u v, (∀ i, i < u.length →
        pat.isPrefixOf ((u ++ (pat ++ v)).drop i) = false) →
      replaceAll pat rep (u ++ (pat ++ v)) = u ++ rep ++ replaceAll pat rep v := by
  intro u
  induction u with
  | nil =>
    intro v _
    obtain ⟨c, pat', rfl⟩ : ∃ c pat', pat = c :: pat' := by
      cases pat with
      | nil => exact absurd rfl hp
      | cons c p => exact ⟨c, p, rfl⟩
    simp only [List.nil_append, List.cons_append]
    rw [replaceAll_cons, if_neg hp]
    have hpre : (c :: pat').isPrefixOf (c :: (pat' ++ v)) = true := by
      rw [List.isPrefixOf_iff_prefix]
      exact ⟨v, by simp⟩
    rw [if_pos hpre]
    simp only [List.length_cons, Nat.add_sub_cancel]
    rw [List.drop_left]
  | cons c u' ih =>
    intro v h
    have h0 : pat.isPrefixOf (c :: (u' ++ (pat ++ v))) = false := by
      have := h 0 (by simp)
      simpa using this
    simp only [List.cons_append]
    rw [replaceAll_cons, if_neg hp, if_neg (by simp [h0])]
    rw [ih v (fun i hi => by
      have := h (i + 1) (by simp only [List.length_cons]; omega)
      simpa using this)]

theorem lookup_mapInsert {α : Type} (m : List (String × α)) (k : String)
    (v : α) (k' : String) :
    List.lookup k' (mapInsert m k v) = if k' = k then some v
      else List.lookup k' m := by
  induction m with
  | nil =>
    by_cases h : k' = k
    · simp [mapInsert, h]
    · simp [mapInsert, h, List.lookup, beq_false_of_ne h]
  | cons hd rest ih =>
    obtain ⟨q, d⟩ := hd
    simp only [mapInsert]
    by_cases hq : q = k
    · subst hq
      by_cases hk : k' = q
      · simp [hk]
      · simp [hk, List.lookup, beq_false_of_ne hk]
    · by_cases hk : k' = q
      · subst hk
        simp [if_neg hq, List.lookup, hq]
      · simp [if_neg hq, List.lookup, beq_false_of_ne hk, ih]

theorem lookup_mem {α : Type} :
    ∀ (m : List (String × α)) (k : String) (v : α),
      List.lookup k m = some v → (k, v) ∈ m := by
  intro m
  induction m with
  | nil => intro k v h; simp [List.lookup] at h
  | cons hd rest ih =>
    intro k v h
    obtain ⟨q, d⟩ := hd
    by_cases hk : k = q
    · subst hk
      simp only [List.lookup_cons, beq_self_eq_true] at h
      simp only [Option.some.injEq] at h
      subst h
      exact List.mem_cons_self _ _
    · rw [List.lookup_cons, beq_false_of_ne hk] at h
      exact List.mem_cons_of_mem _ (ih k v h)

theorem fsRead_fsWrite (fs : FS) (p c : String) :
    fsRead (fsWrite fs p c) p = some c := by
  induction fs with
  | nil => simp [fsWrite, fsRead, List.lookup]
  | cons hd rest ih =>
    obtain ⟨q, d⟩ := hd
    simp only [fsWrite]
    by_cases h : q = p
    · simp [h, fsRead, List.lookup]
    · simp only [if_neg h, fsRead, List.lookup] at ih ⊢
      rw [beq_false_of_ne (Ne.symm h)]
      exact ih

theorem lookup_foldl_mapInsert_isSome {β γ : Type} (f : β → String)
    (g : β → γ) :
    ∀ (l : List β) (m : List (String × γ)) (k : String),
      (List.lookup k m).isSome = true →
      (List.lookup k
        (l.foldl (fun acc x => mapInsert acc (f x) (g x)) m)).isSome = true := by
  intro l
  induction l with
  | nil => intro m k h; exact h
  | cons x xs ih =>
    intro m k h
    apply ih
    rw [lookup_mapInsert]
    split
    · rfl
    · exact h

theorem lookup_foldl_mapInsert_mem {β γ : Type} (f : β → String) (g : β → γ) :
    ∀ (l : List β) (m : List (String × γ)) (x : β), x ∈ l →
      (List.lookup (f x)
        (l.foldl (fun acc x => mapInsert acc (f x) (g x)) m)).isSome = true := by
  intro l
  induction l with
  | nil => intro m x hx; cases hx
  | cons y ys ih =>
    intro m x hx
    rcases List.mem_cons.mp hx with h | h
    · subst h
      simp only [List.foldl_cons]
      apply lookup_foldl_mapInsert_isSome
      rw [lookup_mapInsert]
      simp
    · simp only [List.foldl_cons]
      exact ih _ x h

theorem tools_after_connect_fold (connectO : ConnectOracle) :
    ∀ (servers : List (String × McpServerConfig)) (m : McpManager),
      (servers.foldl (connectStep connectO) m).tools = m.tools := by
  intro servers
  induction servers with
  | nil => intro m; rfl
  | cons nc rest ih =>
    intro m
    simp only [List.foldl_cons]
    rw [ih]
    unfold connectStep
    split <;> rfl

theorem clients_connect_fold_isSome (connectO : ConnectOracle) :
    ∀ (servers : List (String × McpServerConfig)) (m : McpManager)
      (k : String),
      (List.lookup k m.clients).isSome = true →
      (List.lookup k
        ((servers.foldl (connectStep connectO) m).clients)).isSome = true := by
  intro servers
  induction servers with
  | nil => intro m k h; exact h
  | cons nc rest ih =>
    intro m k h
    simp only [List.foldl_cons]
    apply ih
    unfold connectStep
    split
    · simp only [lookup_mapInsert]
      split
      · rfl
      · exact h
    · exact h

theorem clients_connect_fold_mem (connectO : ConnectOracle) :
    ∀ (servers : List (String × McpServerConfig)) (m : McpManager)
      (nc : String × McpServerConfig), nc ∈ servers →
      connect_server connectO nc.1 nc.2 = .ok () →
      (List.lookup nc.1
        ((servers.foldl (connectStep connectO) m).clients)).isSome = true := by
  intro servers
  induction servers with
  | nil => intro m nc hmem; cases hmem
  | cons hd rest ih =>
    intro m nc hmem hok
    rcases List.mem_cons.mp hmem with h | h
    · subst h
      simp only [List.foldl_cons]
      apply clients_connect_fold_isSome
      unfold connectStep
      rw [hok]
      simp only [lookup_mapInsert]
      simp
    · exact ih _ nc h hok

theorem tools_discover_fold_isSome (listO : ListToolsOracle) :
    ∀ (clients : List (String × Unit))
      (acc : List (String × (String × Tool))) (k : String),
      (List.lookup k acc).isSome = true →
      (List.lookup k (clients.foldl (discoverStep listO) acc)).isSome = true := by
  intro clients
  induction clients with
  | nil => intro acc k h; exact h
  | cons sc rest ih =>
    intro acc k h
    simp only [List.foldl_cons]
    apply ih
    unfold discoverStep
    split
    · exact lookup_foldl_mapInsert_isSome _ _ _ _ _ h
    · exact h

theorem tools_discover_fold_mem (listO : ListToolsOracle) :
    ∀ (clients : List (String × Unit))
      (acc : List (String × (String × Tool))) (s : String)
      (ts : List Tool) (t : Tool),
      (s, ()) ∈ clients → listO s = .ok ts → t ∈ ts →
      (List.lookup t.name
        (clients.foldl (discoverStep listO) acc)).isSome = true := by
  intro clients
  induction clients with
  | nil => intro acc s ts t hmem; cases hmem
  | cons sc rest ih =>
    intro acc s ts t hmem hls ht
    rcases List.mem_cons.mp hmem with h | h
    · simp only [List.foldl_cons]
      apply tools_discover_fold_isSome
      unfold discoverStep
      rw [show sc.1 = s from by rw [← h], hls]
      exact lookup_foldl_mapInsert_mem Tool.name (fun t => (s, t)) ts acc t ht
    · exact ih _ s ts t h hls ht

/-! ## Claim C1 -/

/-- C1 (counterexample): the claim says a `read_file`/`edit_file` failure on
a path whose file cannot be read is returned as a `ToolCallResult` with
`is_error = true` and "never surfaces as a fatal error to the caller of
execute/call".  In fact both handlers propagate the read failure with `?` as
a fatal `Err`, not as an `is_error` result. -/
theorem c1_unreadable_file_is_fatal :
    execute_read_file ⟨some "missing.txt", none, none⟩ [] =
      .err "Failed to read file: missing.txt"
    ∧ execute_edit_file ⟨some "missing.txt", some "a", some "b"⟩ [] =
      .err "Failed to read file: missing.txt" := by
  constructor <;> decide

/-- C1 (amended): failures detected by a handler's own logic — a timed-out or
denylist-free failing command in `bash`, absent `old_text` in `edit_file` —
are returned as `ToolResult` values with `is_error = true`; but filesystem
read failures in `read_file`/`edit_file` and a spawn failure in `bash`
surface as fatal `Err` values to the caller of `execute`, exactly like
malformed/missing arguments. -/
theorem builtin_handler_error_surfacing :
    (∀ (fs : FS) (p : String) (s e : Option Nat), fsRead fs p = none →
       execute_read_file ⟨some p, s, e⟩ fs = .err ("Failed to read file: " ++ p))
  ∧ (∀ (fs : FS) (p o n : String), fsRead fs p = none →
       execute_edit_file ⟨some p, some o, some n⟩ fs =
         .err ("Failed to read file: " ++ p))
  ∧ (∀ (fs : FS) (p o n content : String), fsRead fs p = some content →
       rustContains content o = false →
       execute_edit_file ⟨some p, some o, some n⟩ fs =
         .ok (ToolResult.error
           "Old text not found in file. Text must match exactly.", fs))
  ∧ (∀ (cmd : String) (t : Option Nat) (run : String → BashOutcome),
       (∀ p ∈ dangerous_patterns, rustContains cmd p = false) →
       run cmd = .timedOut →
       execute_bash ⟨some cmd, t⟩ run =
         .ok (ToolResult.error ("Command timed out after "
           ++ toString (t.getD 30) ++ " seconds")))
  ∧ (∀ (cmd : String) (t : Option Nat) (run : String → BashOutcome)
       (out : CmdOutput),
       (∀ p ∈ dangerous_patterns, rustContains cmd p = false) →
       run cmd = .ran out → out.status_success = false →
       execute_bash ⟨some cmd, t⟩ run = .ok (ToolResult.error
         ("Command failed with exit code " ++ toString out.exit_code ++ "\n"
           ++ ((if out.stdout ≠ "" then out.stdout else "")
               ++ (if out.stderr ≠ "" then
                     (if out.stdout ≠ "" then "\nSTDERR:\n" else "")
                       ++ out.stderr
                   else "")))))
  ∧ (∀ (cmd : String) (t : Option Nat) (run : String → BashOutcome),
       (∀ p ∈ dangerous_patterns, rustContains cmd p = false) →
       run cmd = .spawnFail →
       execute_bash ⟨some cmd, t⟩ run = .err "Failed to execute command") := by
  refine ⟨?_, ?_, ?_, ?_, ?_, ?_⟩
  · intro fs p s e h
    simp [execute_read_file, h]
  · intro fs p o n h
    simp [execute_edit_file, h]
  · intro fs p o n content h hc
    simp [execute_edit_file, h, hc]
  · intro cmd t run hpat hrun
    have hf : dangerous_patterns.find? (fun p => rustContains cmd p) = none :=
      List.find?_eq_none.mpr (by intro p hp; simp [hpat p hp])
    simp [execute_bash, hf, hrun]
  · intro cmd t run out hpat hrun hfail
    have hf : dangerous_patterns.find? (fun p => rustContains cmd p) = none :=
      List.find?_eq_none.mpr (by intro p hp; simp [hpat p hp])
    simp [execute_bash, hf, hrun, hfail]
  · intro cmd t run hpat hrun
    have hf : dangerous_patterns.find? (fun p => rustContains cmd p) = none :=
      List.find?_eq_none.mpr (by intro p hp; simp [hpat p hp])
    simp [execute_bash, hf, hrun]

/-- C1 (witness): concrete instances for every case of
`builtin_handler_error_surfacing`. -/
theorem builtin_handler_error_surfacing_witness :
    execute_read_file ⟨some "gone.txt", none, none⟩ [] =
      .err ("Failed to read file: " ++ "gone.txt")
  ∧ execute_edit_file ⟨some "gone.txt", some "x", some "y"⟩ [] =
      .err ("Failed to read file: " ++ "gone.txt")
  ∧ execute_edit_file ⟨some "f", some "x", some "y"⟩ [("f", "abc")] =
      .ok (ToolResult.error
        "Old text not found in file. Text must match exactly.", [("f", "abc")])
  ∧ execute_bash ⟨some "ls", none⟩ (fun _ => .timedOut) =
      .ok (ToolResult.error ("Command timed out after "
        ++ toString ((none : Option Nat).getD 30) ++ " seconds"))
  ∧ execute_bash ⟨some "ls", none⟩ (fun _ => .ran ⟨"", "boom", 2, false⟩)
      = .ok (ToolResult.error
          ("Command failed with exit code " ++ toString (2 : Int) ++ "\n"
            ++ ((if ("" : String) ≠ "" then "" else "")
                ++ (if ("boom" : String) ≠ "" then
                      (if ("" : String) ≠ "" then "\nSTDERR:\n" else "") ++ "boom"
                    else ""))))
  ∧ execute_bash ⟨some "ls", none⟩ (fun _ => .spawnFail) =
      .err "Failed to execute command" :=
  ⟨builtin_handler_error_surfacing.1 [] "gone.txt" none none rfl,
   builtin_handler_error_surfacing.2.1 [] "gone.txt" "x" "y" rfl,
   builtin_handler_error_surfacing.2.2.1 [("f", "abc")] "f" "x" "y" "abc"
     (by decide) (by decide),
   builtin_handler_error_surfacing.2.2.2.1 "ls" none (fun _ => .timedOut)
     (by decide) rfl,
   builtin_handler_error_surfacing.2.2.2.2.1 "ls" none
     (fun _ => .ran ⟨"", "boom", 2, false⟩) ⟨"", "boom", 2, false⟩
     (by decide) rfl rfl,
   builtin_handler_error_surfacing.2.2.2.2.2 "ls" none (fun _ => .spawnFail)
     (by decide) rfl⟩

/-! ## Claim C2 -/

/-- C2 (counterexample): the claim says `read_file` "never fails or panics on
out-of-range bounds" and that a `start_line` past the last line clamps to the
first line.  On a two-line file with `start_line = 5`, `end_line = 6`, the
Rust slice `lines[4..2]` panics. -/
theorem c2_out_of_range_start_panics :
    execute_read_file ⟨some "f", some 5, some 6⟩ [("f", "a\nb")] = .panic := by
  decide

/-- C2 (amended): with both bounds given, an `end_line` past the last line
clamps to the last line and a `start_line` of zero behaves as the first line,
and the call returns the 1-indexed inclusive window; but a `start_line` with
`start_line - 1 > min end_line (number of lines)` makes the call panic
instead of clamping. -/
theorem read_file_line_window (fs : FS) (path content : String) (s e : Nat)
    (hread : fsRead fs path = some content) :
    (s - 1 ≤ min e (rustLines content).length →
      execute_read_file ⟨some path, some s, some e⟩ fs =
        .ok (ToolResult.success (String.intercalate "\n"
          (((rustLines content).take (min e (rustLines content).length)).drop
            (s - 1)))))
    ∧ (min e (rustLines content).length < s - 1 →
        execute_read_file ⟨some path, some s, some e⟩ fs = .panic)
    ∧ execute_read_file ⟨some path, some 0, some e⟩ fs
        = execute_read_file ⟨some path, some 1, some e⟩ fs := by
  refine ⟨?_, ?_, ?_⟩
  · intro h
    simp only [execute_read_file, hread, if_pos h]
    rw [List.drop_take]
  · intro h
    simp only [execute_read_file, hread]
    rw [if_neg (by omega)]
  · simp only [execute_read_file, hread]

/-- C2 (witness): a concrete in-range window with an `end_line` past the last
line, via `read_file_line_window`; and the last line of a file ending in a
bare carriage return, which keeps its `'\r'` as `str::lines` does. -/
theorem read_file_line_window_witness :
    execute_read_file ⟨some "f", some 2, some 10⟩ [("f", "l1\nl2\nl3")] =
      .ok (ToolResult.success "l2\nl3")
    ∧ execute_read_file ⟨some "g", some 4, some 4⟩
        [("g", "foo\r\nbar\n\nbaz\r")] =
      .ok (ToolResult.success "baz\r") := by
  constructor
  · rw [(read_file_line_window [("f", "l1\nl2\nl3")] "f" "l1\nl2\nl3" 2 10
          rfl).1 (by decide)]
    decide
  · rw [(read_file_line_window [("g", "foo\r\nbar\n\nbaz\r")] "g"
          "foo\r\nbar\n\nbaz\r" 4 4 rfl).1 (by decide)]
    decide

/-! ## Claim C7 -/

/-- C7: a command containing any denylisted pattern is rejected with an
`is_error` result naming a matching pattern, and the result does not depend
on the subprocess oracle (no subprocess is spawned); in particular a command
containing `"rm -rf /"` — the first pattern — is blocked with exactly that
pattern named. -/
theorem bash_denylist_blocks (cmd : String) (t : Option Nat)
    (run run' : String → BashOutcome) :
    (dangerous_patterns.any (fun p => rustContains cmd p) = true →
      ∃ p, p ∈ dangerous_patterns ∧ rustContains cmd p = true ∧
        execute_bash ⟨some cmd, t⟩ run =
          .ok (ToolResult.error
            ("Command blocked for security: contains '" ++ p ++ "'")))
    ∧ (rustContains cmd "rm -rf /" = true →
        execute_bash ⟨some cmd, t⟩ run =
          .ok (ToolResult.error
            "Command blocked for security: contains 'rm -rf /'")
        ∧ execute_bash ⟨some cmd, t⟩ run = execute_bash ⟨some cmd, t⟩ run') := by
  constructor
  · intro h
    cases hf : dangerous_patterns.find? (fun p => rustContains cmd p) with
    | none =>
      rw [List.find?_eq_none] at hf
      rw [List.any_eq_true] at h
      obtain ⟨p, hp, hc⟩ := h
      exact absurd hc (by simpa using hf p hp)
    | some p =>
      refine ⟨p, List.mem_of_find?_eq_some hf, by simpa using List.find?_some hf, ?_⟩
      simp [execute_bash, hf]
  · intro h
    have hf : dangerous_patterns.find? (fun p => rustContains cmd p)
        = some "rm -rf /" := by
      simp [dangerous_patterns, List.find?, h]
    constructor
    · simp [execute_bash, hf]
    · simp [execute_bash, hf]

/-- C7 (witness): the command `"rm -rf /"` itself is blocked, with the
message naming the pattern, under two different subprocess oracles. -/
theorem bash_denylist_blocks_witness :
    execute_bash ⟨some "rm -rf /", none⟩ (fun _ => .timedOut) =
      .ok (ToolResult.error "Command blocked for security: contains 'rm -rf /'")
    ∧ execute_bash ⟨some "rm -rf /", none⟩ (fun _ => .timedOut)
        = execute_bash ⟨some "rm -rf /", none⟩ (fun _ => .spawnFail) :=
  (bash_denylist_blocks "rm -rf /" none (fun _ => .timedOut)
    (fun _ => .spawnFail)).2 (by decide)

/-! ## Claim C8 -/

/-- C8: after a successful `edit_file` replacing `A` with `B`, if `A` no
longer occurs in the written contents, a second identical call returns an
error result and leaves the filesystem exactly as after the first call. -/
theorem edit_file_idempotent (fs : FS) (path A B content : String)
    (hread : fsRead fs path = some content)
    (hcontains : rustContains content A = true)
    (habsent : rustContains (rustReplace content A B) A = false) :
    execute_edit_file ⟨some path, some A, some B⟩ fs =
      .ok (ToolResult.success ("File edited successfully: " ++ path),
           fsWrite fs path (rustReplace content A B))
    ∧ execute_edit_file ⟨some path, some A, some B⟩
        (fsWrite fs path (rustReplace content A B)) =
      .ok (ToolResult.error "Old text not found in file. Text must match exactly.",
           fsWrite fs path (rustReplace content A B)) := by
  constructor
  · simp [execute_edit_file, hread, hcontains]
  · simp [execute_edit_file, fsRead_fsWrite, habsent]

/-- C8 (witness): a concrete round-trip `write(A→B)` then `attempt(A→B)`. -/
theorem edit_file_idempotent_witness :
    execute_edit_file ⟨some "f", some "ell", some "ipp"⟩ [("f", "hello")] =
      .ok (ToolResult.success ("File edited successfully: " ++ "f"),
           fsWrite [("f", "hello")] "f" (rustReplace "hello" "ell" "ipp"))
    ∧ execute_edit_file ⟨some "f", some "ell", some "ipp"⟩
        (fsWrite [("f", "hello")] "f" (rustReplace "hello" "ell" "ipp")) =
      .ok (ToolResult.error "Old text not found in file. Text must match exactly.",
           fsWrite [("f", "hello")] "f" (rustReplace "hello" "ell" "ipp")) :=
  edit_file_idempotent [("f", "hello")] "f" "ell" "ipp" "hello"
    (by decide) (by decide) (by decide)

/-! ## Claim C9 -/

/-- C9: when exactly one of `start_line`/`end_line` is provided (or neither),
the line window is ignored and the full file content is returned. -/
theorem read_file_single_bound_ignored (fs : FS) (path content : String)
    (s e : Nat) (hread : fsRead fs path = some content) :
    execute_read_file ⟨some path, some s, none⟩ fs =
      .ok (ToolResult.success content)
    ∧ execute_read_file ⟨some path, none, some e⟩ fs =
      .ok (ToolResult.success content)
    ∧ execute_read_file ⟨some path, none, none⟩ fs =
      .ok (ToolResult.success content) := by
  refine ⟨?_, ?_, ?_⟩ <;> simp [execute_read_file, hread]

/-- C9 (witness): a concrete file with only one bound provided. -/
theorem read_file_single_bound_ignored_witness :
    execute_read_file ⟨some "f", some 7, none⟩ [("f", "a\nb")] =
      .ok (ToolResult.success "a\nb")
    ∧ execute_read_file ⟨some "f", none, some 9⟩ [("f", "a\nb")] =
      .ok (ToolResult.success "a\nb")
    ∧ execute_read_file ⟨some "f", none, none⟩ [("f", "a\nb")] =
      .ok (ToolResult.success "a\nb") :=
  read_file_single_bound_ignored [("f", "a\nb")] "f" "a\nb" 7 9 rfl

/-! ## Claim C10 -/

/-- C10: `edit_file` replaces every occurrence of `old_text`, not only the
first.  For a file of shape `u ++ pat ++ v ++ pat ++ w` where no earlier
match of `pat` starts inside `u` (resp. inside `v`), both exhibited
occurrences are replaced in the single call. -/
theorem edit_file_replaces_every_occurrence (fs : FS)
    (path u pat v w rep : String)
    (hp : pat.data ≠ [])
    (hu : ∀ i, i < u.data.length →
      pat.data.isPrefixOf
        ((u.data ++ (pat.data ++ (v.data ++ (pat.data ++ w.data)))).drop i)
        = false)
    (hv : ∀ i, i < v.data.length →
      pat.data.isPrefixOf ((v.data ++ (pat.data ++ w.data)).drop i) = false)
    (hread : fsRead fs path = some (u ++ pat ++ v ++ pat ++ w)) :
    execute_edit_file ⟨some path, some pat, some rep⟩ fs =
      .ok (ToolResult.success ("File edited successfully: " ++ path),
           fsWrite fs path (u ++ rep ++ v ++ rep ++ rustReplace w pat rep)) := by
  have hdata : (u ++ pat ++ v ++ pat ++ w).data
      = u.data ++ (pat.data ++ (v.data ++ (pat.data ++ w.data))) := by
    simp [String.data_append]
  have hcont : rustContains (u ++ pat ++ v ++ pat ++ w) pat = true := by
    unfold rustContains
    rw [hdata]
    exact isSubstring_append pat.data u.data (v.data ++ (pat.data ++ w.data))
  have hrep : rustReplace (u ++ pat ++ v ++ pat ++ w) pat rep
      = u ++ rep ++ v ++ rep ++ rustReplace w pat rep := by
    unfold rustReplace
    apply congrArg String.mk
    rw [hdata]
    rw [replaceAll_append_left pat.data rep.data hp u.data
          (v.data ++ (pat.data ++ w.data)) hu]
    rw [replaceAll_append_left pat.data rep.data hp v.data w.data hv]
    simp [String.data_append, rustReplace, List.append_assoc]
  simp [execute_edit_file, hread, hcont, hrep]

/-- C10 (witness): both occurrences of `"X"` in `"aXbXc"` are replaced. -/
theorem edit_file_replaces_every_occurrence_witness :
    execute_edit_file ⟨some "f", some "X", some "YY"⟩ [("f", "aXbXc")] =
      .ok (ToolResult.success ("File edited successfully: " ++ "f"),
           fsWrite [("f", "aXbXc")] "f"
             ("a" ++ "YY" ++ "b" ++ "YY" ++ rustReplace "c" "X" "YY")) :=
  edit_file_replaces_every_occurrence [("f", "aXbXc")] "f" "a" "X" "b" "c" "YY"
    (by decide) (by decide) (by decide) (by decide)

/-! ## Claim C3 -/

/-- C3 (counterexample): the claim says both transports send an `initialized`
notification after awaiting the `initialize` response.  A successful HTTP
connect sends exactly one message — the `initialize` request (which carries
an `id` and method `"initialize"`) — and no notification at all. -/
theorem c3_http_sends_no_initialized_notification :
    (httpConnect (fun _ => .resp 200 (some (.obj [])))).1 = .ok ()
    ∧ (httpConnect (fun _ => .resp 200 (some (.obj [])))).2 = [initRequest 1]
    ∧ jGet (initRequest 1) "method" = .str "initialize"
    ∧ jGet (initRequest 1) "id" = .num 1 :=
  ⟨rfl, rfl, rfl, rfl⟩

theorem httpSendRequest_trace (oracle : HttpOracle) (req : Json)
    (trace : List Json) :
    (httpSendRequest oracle req trace).2 = trace ++ [req] := by
  unfold httpSendRequest
  cases oracle req with
  | netFail => rfl
  | resp status body =>
    simp only
    split
    · cases body <;> rfl
    · rfl

theorem httpInitialize_trace (oracle : HttpOracle) (trace : List Json) :
    (httpInitialize oracle trace).2 = trace ++ [initRequest 1] := by
  unfold httpInitialize
  rcases h : httpSendRequest oracle (initRequest 1) trace with ⟨r, tr⟩
  have htr := httpSendRequest_trace oracle (initRequest 1) trace
  rw [h] at htr
  cases r <;> simpa using htr

/-- C3 (amended): the stdio transport performs the full handshake — it sends
the `initialize` request carrying `protocolVersion`, `capabilities` and
`clientInfo`, awaits its response (an unparseable response is a connect
failure), then sends the id-less `initialized` notification, and a
successful connect has sent exactly these two messages.  The HTTP transport
sends only the `initialize` request; it never sends an `initialized`
notification. -/
theorem handshake_per_transport :
    (∀ (oracle : StdioOracle) (st : StdioState),
      stdioConnect oracle = .ok st →
        st.sent = [initRequest 1, initializedNotification]
        ∧ st.readCount = 1 ∧ st.requestId = 2)
    ∧ (∀ oracle : StdioOracle, oracle 0 = none →
        stdioConnect oracle = .err "Failed to parse MCP response")
    ∧ (∀ oracle : HttpOracle, (httpConnect oracle).2 = [initRequest 1])
    ∧ jGet (jGet (initRequest 1) "params") "protocolVersion" = .str "2025-06-18"
    ∧ jGet (jGet (initRequest 1) "params") "capabilities" = .obj []
    ∧ jGet (jGet (initRequest 1) "params") "clientInfo"
        = .obj [("name", .str "ai-chat-cli"), ("version", .str "0.2.0")]
    ∧ jGet initializedNotification "id" = .null
    ∧ jGet initializedNotification "method" = .str "notifications/initialized" := by
  refine ⟨?_, ?_, ?_, rfl, rfl, rfl, rfl, rfl⟩
  · intro oracle st h
    cases ho : oracle 0 with
    | none =>
      simp [stdioConnect, stdioInitialize, stdioSendRequest, ho] at h
    | some j =>
      simp [stdioConnect, stdioInitialize, stdioSendRequest,
            stdioSendNotification, ho] at h
      subst h
      exact ⟨rfl, rfl, rfl⟩
  · intro oracle ho
    simp [stdioConnect, stdioInitialize, stdioSendRequest, ho]
  · intro oracle
    simpa using httpInitialize_trace oracle []

/-- C3 (witness): a stdio connect against a server answering `{}` performs
exactly the two-message handshake. -/
theorem handshake_per_transport_witness :
    stdioConnect (fun _ => some (.obj [])) =
      .ok ⟨2, [initRequest 1, initializedNotification], 1⟩
    ∧ ((⟨2, [initRequest 1, initializedNotification], 1⟩ : StdioState).sent
        = [initRequest 1, initializedNotification]
      ∧ (⟨2, [initRequest 1, initializedNotification], 1⟩ : StdioState).readCount
          = 1
      ∧ (⟨2, [initRequest 1, initializedNotification], 1⟩ : StdioState).requestId
          = 2)
    ∧ stdioConnect (fun _ => none) = .err "Failed to parse MCP response" :=
  ⟨rfl,
   handshake_per_transport.1 (fun _ => some (.obj [])) _ rfl,
   handshake_per_transport.2.1 (fun _ => none) rfl⟩

/-! ## Claim C4 -/

/-- C4 (counterexample): the claim says every 2xx response whose JSON body
lacks a `result` field is treated as an error.  The HTTP `initialize`
handshake ignores the body entirely: a 2xx response with body
`{"error": "boom"}` (no `result`) yields a successful connect. -/
theorem c4_http_initialize_accepts_missing_result :
    (httpConnect (fun _ => .resp 200 (some (.obj [("error", .str "boom")])))).1
      = .ok () := rfl

/-- C4 (amended): `listTools` and `callTool` treat a 2xx response whose JSON
body lacks `result` as an error; the `initialize` handshake is fatal on
network failure, non-2xx status, or a non-JSON body — but it accepts any 2xx
JSON body, even one lacking `result`, and connect then succeeds. -/
theorem http_missing_result_handling :
    (∀ (oracle : HttpOracle) (uuid : String) (status : Nat)
       (fields : List (String × Json)),
       oracle (toolsListRequestHttp uuid) = .resp status (some (.obj fields)) →
       200 ≤ status → status ≤ 299 → fields.lookup "result" = none →
       (httpListTools oracle uuid).isErr = true)
    ∧ (∀ (oracle : HttpOracle) (uuid name : String) (args : Json)
         (status : Nat) (fields : List (String × Json)),
         oracle (toolsCallRequestHttp uuid name args)
           = .resp status (some (.obj fields)) →
         200 ≤ status → status ≤ 299 → fields.lookup "result" = none →
         (httpCallTool oracle uuid name args).isErr = true)
    ∧ (∀ oracle : HttpOracle, oracle (initRequest 1) = .netFail →
        (httpConnect oracle).1 = .err "Failed to send HTTP request to MCP server")
    ∧ (∀ (oracle : HttpOracle) (status : Nat),
        oracle (initRequest 1) = .resp status none →
        200 ≤ status → status ≤ 299 →
        (httpConnect oracle).1 = .err "Failed to parse MCP response")
    ∧ (∀ (oracle : HttpOracle) (status : Nat) (body : Option Json),
        oracle (initRequest 1) = .resp status body →
        ¬(200 ≤ status ∧ status ≤ 299) →
        (httpConnect oracle).1
          = .err ("MCP server returned error: " ++ toString status))
    ∧ (∀ (oracle : HttpOracle) (status : Nat) (body : Json),
        oracle (initRequest 1) = .resp status (some body) →
        200 ≤ status → status ≤ 299 →
        (httpConnect oracle).1 = .ok ()) := by
  refine ⟨?_, ?_, ?_, ?_, ?_, ?_⟩
  · intro oracle uuid status fields h h1 h2 hres
    simp [httpListTools, httpSendRequest, h, h1, h2, jGet, hres, decodeTools,
          RResult.isErr]
  · intro oracle uuid name args status fields h h1 h2 hres
    simp [httpCallTool, httpSendRequest, h, h1, h2, jGet, hres,
          decodeToolCallResult, RResult.isErr]
  · intro oracle h
    simp [httpConnect, httpInitialize, httpSendRequest, h]
  · intro oracle status h h1 h2
    simp [httpConnect, httpInitialize, httpSendRequest, h, h1, h2]
  · intro oracle status body h hbad
    simp [httpConnect, httpInitialize, httpSendRequest, h, hbad]
  · intro oracle status body h h1 h2
    simp [httpConnect, httpInitialize, httpSendRequest, h, h1, h2]

/-- C4 (witness): concrete oracles for each case of
`http_missing_result_handling`. -/
theorem http_missing_result_handling_witness :
    (httpListTools (fun _ => .resp 200 (some (.obj []))) "u").isErr = true
    ∧ (httpCallTool (fun _ => .resp 200 (some (.obj []))) "u" "t" .null).isErr
        = true
    ∧ (httpConnect (fun _ => .netFail)).1
        = .err "Failed to send HTTP request to MCP server"
    ∧ (httpConnect (fun _ => .resp 200 none)).1
        = .err "Failed to parse MCP response"
    ∧ (httpConnect (fun _ => .resp 500 (some (.obj [])))).1
        = .err ("MCP server returned error: " ++ toString 500)
    ∧ (httpConnect (fun _ => .resp 201 (some (.obj [])))).1 = .ok () :=
  ⟨http_missing_result_handling.1 _ "u" 200 [] rfl (by decide) (by decide) rfl,
   http_missing_result_handling.2.1 _ "u" "t" .null 200 [] rfl (by decide)
     (by decide) rfl,
   http_missing_result_handling.2.2.1 _ rfl,
   http_missing_result_handling.2.2.2.1 _ 200 rfl (by decide) (by decide),
   http_missing_result_handling.2.2.2.2.1 _ 500 (some (.obj [])) rfl (by decide),
   http_missing_result_handling.2.2.2.2.2 _ 201 (.obj []) rfl (by decide)
     (by decide)⟩

/-! ## Claim C5 -/

/-- C5: manager construction isolates per-server failures — it always
succeeds regardless of the connect and discovery oracles; every built-in
tool's name is in the catalog; every server whose connect succeeded is in
the clients map (independently of other servers failing); and every tool of
every connected server with a successful `listTools` is in the catalog
(independently of other servers' discovery failing). -/
theorem manager_isolates_per_server_failures
    (servers : List (String × McpServerConfig))
    (connectO : ConnectOracle) (listO : ListToolsOracle) :
    ∃ m, managerNew servers connectO listO = .ok m
      ∧ (∀ bt ∈ builtinToolsList, (List.lookup bt.name m.tools).isSome = true)
      ∧ (∀ nc ∈ servers, connect_server connectO nc.1 nc.2 = .ok () →
          (List.lookup nc.1 m.clients).isSome = true)
      ∧ (∀ (s : String) (ts : List Tool), List.lookup s m.clients = some () →
          listO s = .ok ts →
          ∀ t ∈ ts, (List.lookup t.name m.tools).isSome = true) := by
  refine ⟨_, rfl, ?_, ?_, ?_⟩
  · intro bt hbt
    apply tools_discover_fold_isSome
    rw [tools_after_connect_fold]
    exact lookup_foldl_mapInsert_mem (fun t : BuiltinTool => t.name)
      (fun t => ("builtin", Tool.mk t.name t.description t.input_schema))
      builtinToolsList [] bt hbt
  · intro nc hnc hok
    exact clients_connect_fold_mem connectO servers _ nc hnc hok
  · intro s ts hs hls t ht
    exact tools_discover_fold_mem listO _ _ s ts t (lookup_mem _ _ _ hs) hls ht

/-! ## Claim C6 -/

/-- C6: catalog construction is last-registered-wins.  Built-ins are
registered first under owner `"builtin"`; with servers `S1` (tools `a`, `b`)
and `S2` (tools `b`, `c`) discovered in that order, `b` ends owned by `S2`,
`a` by `S1`, `c` by `S2`, and an unshadowed built-in such as `bash` stays
owned by `"builtin"`. -/
theorem catalog_last_registered_wins :
    ∃ m, managerNew
        [("S1", ⟨some "cmd1", none⟩), ("S2", ⟨some "cmd2", none⟩)]
        (fun _ => .ok ())
        (fun s => if s = "S1" then
            .ok [⟨"a", "a from S1", .obj []⟩, ⟨"b", "b from S1", .obj []⟩]
          else if s = "S2" then
            .ok [⟨"b", "b from S2", .obj []⟩, ⟨"c", "c from S2", .obj []⟩]
          else .error "unknown server")
      = .ok m
    ∧ List.lookup "b" m.tools = some ("S2", ⟨"b", "b from S2", .obj []⟩)
    ∧ List.lookup "a" m.tools = some ("S1", ⟨"a", "a from S1", .obj []⟩)
    ∧ List.lookup "c" m.tools = some ("S2", ⟨"c", "c from S2", .obj []⟩)
    ∧ List.lookup "bash" m.tools = some ("builtin",
        ⟨bash_tool.name, bash_tool.description, bash_tool.input_schema⟩) :=
  ⟨_, rfl, rfl, rfl, rfl, rfl⟩

end AiChatCli
